import Mathlib

/-!
Verification of the Go handbook repository's demonstration code.

Two parts are embedded here:

1. The functions of `main.go`: `greet`, `isEven`, and the number-checking
   loop of `main` (lines 8-33 of the source).

2. The Bounded Worker Dispatcher of the handbook's overview example
   (the `main`/`worker` pair using a `sync.WaitGroup` and a buffered
   channel): N workers run concurrently, each sends exactly one message
   `"Worker %d completed task"` to a shared channel, and a closer
   goroutine closes the channel once every worker has finished; the
   consumer ranges over the channel.  Concurrency is embedded by making
   the completion order explicit: a run of the dispatcher is described by
   the order in which the tasks complete, which may be any permutation of
   the submitted tasks.  The result stream of that run is the list of
   results in completion order, and the observable trace is the stream of
   yield events followed by the single close event.
-/

namespace GoHandbook

/-- `greet` from `main.go`: substitutes `"World"` for an empty name and
formats `"Hello, %s!"`. -/
def greet (name : String) : String :=
  let n := if name = "" then "World" else name
  "Hello, " ++ n ++ "!"

/-- `isEven` from `main.go`: `n % 2 == 0` on Go `int`.  Go's `%` is the
truncated remainder (same sign as the dividend), which is `Int.tmod`. -/
def isEven (n : Int) : Bool := n.tmod 2 == 0

/-- The lines printed by the number-checking loop of `main`:
`for i := 1; i <= 5; i++` prints `"%d is even"` or `"%d is odd"`
according to `isEven(i)`. -/
def mainNumberLines : List String :=
  (List.range' 1 5).map (fun i =>
    if isEven (Int.ofNat i) then toString i ++ " is even"
    else toString i ++ " is odd")

deriving instance DecidableEq for Except

/-- A unit of work: an identifier plus a computation that either produces
a value or fails with an error indicator.  In the overview example the
computation is the pure string the worker sends; the failure alternative
is the spec's TaskFailure. -/
structure Task where
  id : Nat
  compute : Except String String
deriving DecidableEq, Repr

/-- The outcome a task delivers to the channel: the originating task's
identifier and its computed value or error. -/
structure Result where
  id : Nat
  outcome : Except String String
deriving DecidableEq, Repr

/-- Running one worker: it delivers its task's identifier and outcome. -/
def runTask (t : Task) : Result := ⟨t.id, t.compute⟩

/-- Modelled from the spec: `Submit` returns a finite single-pass stream
of results in completion order.  A run's completion order is any
permutation of the submitted task list; this predicate says `order` is a
possible completion order for `tasks`. -/
def IsCompletionOrder (tasks order : List Task) : Prop :=
  order.Perm tasks

instance (tasks order : List Task) : Decidable (IsCompletionOrder tasks order) :=
  inferInstanceAs (Decidable (order.Perm tasks))

/-- Modelled from the spec: the result stream of a run, i.e. the results
read off the channel in completion order. -/
def resultStream (order : List Task) : List Result :=
  order.map runTask

/-- An observable event at the consumer: a result yielded by the stream,
or the closing of the channel. -/
inductive Event where
  | yield (r : Result)
  | close
deriving DecidableEq, Repr

/-- Whether an event is a yielded result. -/
def Event.isYield : Event → Bool
  | .yield _ => true
  | .close => false

/-- Whether an event is the close of the channel. -/
def Event.isClose : Event → Bool
  | .yield _ => false
  | .close => true

/-- Modelled from the spec: the full observable trace of a dispatch
session — every result in completion order, then the single close fired
by the closer goroutine after `wg.Wait()` returns. -/
def sessionTrace (order : List Task) : List Event :=
  (resultStream order).map Event.yield ++ [Event.close]

/-- The number of yield events after the first close event of a trace. -/
def yieldsAfterClose (tr : List Event) : Nat :=
  ((tr.dropWhile (fun e => !e.isClose)).drop 1).countP Event.isYield

/-- The dispatcher's session states from the spec's state machine. -/
inductive DState where
  | Idle
  | Running
  | Drained
deriving DecidableEq, Repr

/-- The spec's transitions: Idle → Running on submission, Running →
Drained when all N results have been delivered and the stream closed. -/
inductive DTrans : DState → DState → Prop
  | submit : DTrans .Idle .Running
  | drain : DTrans .Running .Drained

/-- The worker body from the source: `fmt.Sprintf("Worker %d completed task", id)`. -/
def workerMessage (id : Nat) : String :=
  "Worker " ++ toString id ++ " completed task"

/-- The three tasks launched by the overview example's `main`:
`for i := 1; i <= 3; i++ { go worker(i, messages, &wg) }`. -/
def snippetTasks : List Task :=
  (List.range' 1 3).map (fun i => ⟨i, Except.ok (workerMessage i)⟩)

/- ------------------------------------------------------------------ -/
/- Helper lemmas                                                       -/
/- ------------------------------------------------------------------ -/

/-- Dropping while `p` holds skips a block that satisfies `p` wholesale. -/
theorem dropWhile_append_of_all {α : Type} (p : α → Bool) (xs ys : List α)
    (h : ∀ x ∈ xs, p x = true) :
    List.dropWhile p (xs ++ ys) = List.dropWhile p ys := by
  induction xs with
  | nil => rfl
  | cons a xs ih =>
      have ha : p a = true := h a (by simp)
      simp [List.dropWhile, ha]
      exact ih (fun x hx => h x (by simp [hx]))

/-- Taking while `p` holds keeps a block that satisfies `p` wholesale,
provided the next element fails `p`. -/
theorem takeWhile_append_of_all {α : Type} (p : α → Bool) (xs : List α) (b : α)
    (h : ∀ x ∈ xs, p x = true) (hb : p b = false) :
    List.takeWhile p (xs ++ [b]) = xs := by
  induction xs with
  | nil => simp [List.takeWhile, hb]
  | cons a xs ih =>
      have ha : p a = true := h a (by simp)
      simp [List.takeWhile, ha]
      exact ih (fun x hx => h x (by simp [hx]))

/-- Every event in the mapped-yield part of a trace is a yield. -/
theorem mem_map_yield_isYield (rs : List Result) :
    ∀ e ∈ rs.map Event.yield, e.isYield = true := by
  intro e he
  rcases List.mem_map.mp he with ⟨r, _, rfl⟩
  rfl

/-- A session trace has exactly `order.length` yield events. -/
theorem countP_yield_sessionTrace (order : List Task) :
    (sessionTrace order).countP Event.isYield = order.length := by
  simp [sessionTrace, resultStream, Event.isYield, List.countP_append,
    List.countP_map, List.countP_eq_length]

/-- Every event in the mapped-yield part of a trace is not a close. -/
theorem mem_map_yield_not_isClose (rs : List Result) :
    ∀ e ∈ rs.map Event.yield, (!e.isClose) = true := by
  intro e he
  rcases List.mem_map.mp he with ⟨r, _, rfl⟩
  rfl

/-- Whether a result's value is the message the worker with its identifier
computes in the source snippet. -/
def valueMatches (r : Result) : Bool :=
  r.outcome == Except.ok (workerMessage r.id)

/- ------------------------------------------------------------------ -/
/- Claim theorems                                                      -/
/- ------------------------------------------------------------------ -/

/-- C8: for every string `name`, `greet name` is `"Hello, " ++ name ++ "!"`
when `name` is non-empty and `"Hello, World!"` when `name` is empty; in
every case the result carries the greeting head and the trailing
exclamation mark. -/
theorem greet_spec (name : String) :
    (name ≠ "" → greet name = "Hello, " ++ name ++ "!") ∧
    (name = "" → greet name = "Hello, World!") ∧
    ∃ core, greet name = "Hello, " ++ core ++ "!" := by
  by_cases h : name = ""
  · subst h
    exact ⟨fun hc => absurd rfl hc, fun _ => rfl, "World", rfl⟩
  · exact ⟨fun _ => by simp [greet, h], fun hc => absurd hc h, name, by simp [greet, h]⟩

/-- Witness for C8 at the source's own call `greet("Gopher")` and at the
empty string. -/
theorem greet_spec_witness :
    greet "Gopher" = "Hello, " ++ "Gopher" ++ "!" ∧ greet "" = "Hello, World!" :=
  ⟨(greet_spec "Gopher").1 (by decide), (greet_spec "").2.1 rfl⟩

/-- C9: for every integer `n`, `isEven n` is `true` exactly when `2 ∣ n`;
Go's truncated `%` (sign of the dividend) still characterises evenness at
negative `n`. -/
theorem isEven_iff_two_dvd (n : Int) : isEven n = true ↔ (2 : Int) ∣ n := by
  rw [isEven, beq_iff_eq, ← Int.dvd_iff_tmod_eq_zero]

/-- Witness for C9 at the negative even integer `-4`. -/
theorem isEven_iff_two_dvd_witness : isEven (-4) = true ↔ (2 : Int) ∣ (-4) :=
  isEven_iff_two_dvd (-4)

/-- C10: the number-checking loop prints exactly one line per `i` from 1
to 5 in increasing order, alternating odd, even, odd, even, odd. -/
theorem main_loop_lines :
    mainNumberLines = ["1 is odd", "2 is even", "3 is odd", "4 is even", "5 is odd"] := by
  decide

/-- C1: for every N ≥ 0, a run over N submitted tasks yields exactly N
results and then closes; no result event occurs after the close event. -/
theorem submit_yields_exactly_n (tasks order : List Task)
    (h : IsCompletionOrder tasks order) :
    (resultStream order).length = tasks.length ∧
    (sessionTrace order).countP Event.isYield = tasks.length ∧
    yieldsAfterClose (sessionTrace order) = 0 := by
  refine ⟨?_, ?_, ?_⟩
  · simpa [resultStream] using h.length_eq
  · rw [countP_yield_sessionTrace]
    exact h.length_eq
  · rw [yieldsAfterClose, sessionTrace,
      dropWhile_append_of_all _ _ _ (mem_map_yield_not_isClose _)]
    rfl

/-- Witness for C1: the snippet's three tasks completing in reverse
submission order. -/
theorem submit_yields_exactly_n_witness :
    (resultStream snippetTasks.reverse).length = snippetTasks.length ∧
    (sessionTrace snippetTasks.reverse).countP Event.isYield = snippetTasks.length ∧
    yieldsAfterClose (sessionTrace snippetTasks.reverse) = 0 :=
  submit_yields_exactly_n snippetTasks snippetTasks.reverse (List.reverse_perm _)

/-- C2: in every run, each submitted task produces exactly one result —
the multiset of results is a permutation of the per-task results, and the
multiset of identifiers received is a permutation of the identifiers
submitted: no loss, no duplication. -/
theorem results_preserve_ids (tasks order : List Task)
    (h : IsCompletionOrder tasks order) :
    (resultStream order).Perm (tasks.map runTask) ∧
    ((resultStream order).map Result.id).Perm (tasks.map Task.id) := by
  refine ⟨h.map runTask, ?_⟩
  simpa [resultStream, List.map_map] using h.map (fun t => t.id)

/-- Witness for C2 at the snippet's tasks in reverse completion order. -/
theorem results_preserve_ids_witness :
    (resultStream snippetTasks.reverse).Perm (snippetTasks.map runTask) ∧
    ((resultStream snippetTasks.reverse).map Result.id).Perm (snippetTasks.map Task.id) :=
  results_preserve_ids snippetTasks snippetTasks.reverse (List.reverse_perm _)

/-- C3: the trace of every run contains exactly one close event, it is
the last event, it occurs only after all N results have been yielded, and
the Drained state is terminal: no transition leaves Drained. -/
theorem completion_signal_once (tasks order : List Task)
    (h : IsCompletionOrder tasks order) :
    (sessionTrace order).countP Event.isClose = 1 ∧
    ((sessionTrace order).takeWhile Event.isYield).length = tasks.length ∧
    (sessionTrace order).getLast? = some Event.close ∧
    ¬ DTrans DState.Drained DState.Idle ∧
    ¬ DTrans DState.Drained DState.Running ∧
    ¬ DTrans DState.Drained DState.Drained := by
  refine ⟨?_, ?_, ?_, ?_, ?_, ?_⟩
  · simp [sessionTrace, List.countP_append, List.countP_map, Event.isClose,
      List.countP_eq_zero, List.countP_cons]
  · rw [sessionTrace,
      takeWhile_append_of_all Event.isYield _ Event.close (mem_map_yield_isYield _) rfl]
    simpa [resultStream] using h.length_eq
  · simp [sessionTrace]
  · exact fun c => nomatch c
  · exact fun c => nomatch c
  · exact fun c => nomatch c

/-- Witness for C3 at the snippet's tasks in reverse completion order. -/
theorem completion_signal_once_witness :
    (sessionTrace snippetTasks.reverse).countP Event.isClose = 1 ∧
    ((sessionTrace snippetTasks.reverse).takeWhile Event.isYield).length = snippetTasks.length ∧
    (sessionTrace snippetTasks.reverse).getLast? = some Event.close ∧
    ¬ DTrans DState.Drained DState.Idle ∧
    ¬ DTrans DState.Drained DState.Running ∧
    ¬ DTrans DState.Drained DState.Drained :=
  completion_signal_once snippetTasks snippetTasks.reverse (List.reverse_perm _)

/-- C4: a task whose computation fails still delivers a result carrying
its error indicator, every sibling task's result is still yielded (the
stream is a permutation of all per-task results and keeps length N), and
the close event still terminates the trace. -/
theorem task_failure_isolated (tasks order : List Task)
    (h : IsCompletionOrder tasks order)
    (t : Task) (ht : t ∈ tasks) (e : String) (he : t.compute = Except.error e) :
    (⟨t.id, Except.error e⟩ : Result) ∈ resultStream order ∧
    (resultStream order).Perm (tasks.map runTask) ∧
    (resultStream order).length = tasks.length ∧
    (sessionTrace order).getLast? = some Event.close := by
  refine ⟨?_, h.map runTask, ?_, ?_⟩
  · have hmem : t ∈ order := h.mem_iff.mpr ht
    have : runTask t = ⟨t.id, Except.error e⟩ := by simp [runTask, he]
    exact this ▸ List.mem_map_of_mem runTask hmem
  · simpa [resultStream] using h.length_eq
  · simp [sessionTrace]

/-- Witness for C4: two tasks, the second failing with `"boom"`, run in
reverse completion order. -/
theorem task_failure_isolated_witness :
    (⟨2, Except.error "boom"⟩ : Result) ∈
      resultStream [⟨2, Except.error "boom"⟩, ⟨1, Except.ok "done"⟩] ∧
    (resultStream [⟨2, Except.error "boom"⟩, ⟨1, Except.ok "done"⟩]).Perm
      (([⟨1, Except.ok "done"⟩, ⟨2, Except.error "boom"⟩] : List Task).map runTask) ∧
    (resultStream [⟨2, Except.error "boom"⟩, ⟨1, Except.ok "done"⟩]).length =
      ([⟨1, Except.ok "done"⟩, ⟨2, Except.error "boom"⟩] : List Task).length ∧
    (sessionTrace [⟨2, Except.error "boom"⟩, ⟨1, Except.ok "done"⟩]).getLast? =
      some Event.close :=
  task_failure_isolated [⟨1, Except.ok "done"⟩, ⟨2, Except.error "boom"⟩]
    [⟨2, Except.error "boom"⟩, ⟨1, Except.ok "done"⟩] (by decide)
    ⟨2, Except.error "boom"⟩ (by decide) "boom" rfl

/-- C5: submitting zero tasks launches no task and the stream closes
immediately with zero results. -/
theorem empty_submission (order : List Task)
    (h : IsCompletionOrder [] order) :
    order = [] ∧ resultStream order = [] ∧ sessionTrace order = [Event.close] := by
  have hnil : order = [] := List.Perm.eq_nil h
  subst hnil
  exact ⟨rfl, rfl, rfl⟩

/-- Witness for C5 at the empty run. -/
theorem empty_submission_witness :
    ([] : List Task) = [] ∧ resultStream [] = [] ∧ sessionTrace [] = [Event.close] :=
  empty_submission [] (List.Perm.refl _)

/-- C6: every run over the snippet's three tasks {1,2,3} yields exactly 3
results whose identifiers are a permutation of {1,2,3}, every result's
value is the worker message for its own identifier, and the stream closes
right after the third result. -/
theorem snippet_three_tasks_scenario (order : List Task)
    (h : IsCompletionOrder snippetTasks order) :
    (resultStream order).length = 3 ∧
    ((resultStream order).map Result.id).Perm [1, 2, 3] ∧
    (resultStream order).all valueMatches = true ∧
    ((sessionTrace order).takeWhile Event.isYield).length = 3 ∧
    (sessionTrace order).getLast? = some Event.close := by
  refine ⟨?_, ?_, ?_, ?_, ?_⟩
  · simpa [resultStream] using h.length_eq
  · have h2 : ((resultStream order).map Result.id).Perm (snippetTasks.map (fun t => t.id)) := by
      simpa [resultStream, List.map_map] using h.map (fun t => t.id)
    have h3 : snippetTasks.map (fun t => t.id) = [1, 2, 3] := rfl
    rw [h3] at h2
    exact h2
  · rw [List.all_eq_true]
    intro r hr
    have hall : ∀ x ∈ snippetTasks.map runTask, valueMatches x = true := by decide
    exact hall r (((h.map runTask).mem_iff).mp hr)
  · rw [sessionTrace,
      takeWhile_append_of_all Event.isYield _ Event.close (mem_map_yield_isYield _) rfl]
    simpa [resultStream] using h.length_eq
  · simp [sessionTrace]

/-- Witness for C6 at the reverse completion order. -/
theorem snippet_three_tasks_scenario_witness :
    (resultStream snippetTasks.reverse).length = 3 ∧
    ((resultStream snippetTasks.reverse).map Result.id).Perm [1, 2, 3] ∧
    (resultStream snippetTasks.reverse).all valueMatches = true ∧
    ((sessionTrace snippetTasks.reverse).takeWhile Event.isYield).length = 3 ∧
    (sessionTrace snippetTasks.reverse).getLast? = some Event.close :=
  snippet_three_tasks_scenario snippetTasks.reverse (List.reverse_perm _)

/-- C7: results are yielded in completion order (the i-th yielded result
is the i-th completed task's result); the order is nondeterministic —
two valid completion orders of the snippet's tasks produce different
streams — so only the permutation of identifiers is assertable, and it
holds for every run. -/
theorem completion_order_nondeterministic (tasks order : List Task)
    (h : IsCompletionOrder tasks order) :
    resultStream order = order.map runTask ∧
    ((resultStream order).map Result.id).Perm (tasks.map Task.id) ∧
    IsCompletionOrder snippetTasks snippetTasks.reverse ∧
    IsCompletionOrder snippetTasks snippetTasks ∧
    resultStream snippetTasks.reverse ≠ resultStream snippetTasks := by
  refine ⟨rfl, ?_, List.reverse_perm _, List.Perm.refl _, by decide⟩
  simpa [resultStream, List.map_map] using h.map (fun t => t.id)

/-- Witness for C7 at the identity completion order of the snippet's
tasks. -/
theorem completion_order_nondeterministic_witness :
    resultStream snippetTasks = snippetTasks.map runTask ∧
    ((resultStream snippetTasks).map Result.id).Perm (snippetTasks.map Task.id) ∧
    IsCompletionOrder snippetTasks snippetTasks.reverse ∧
    IsCompletionOrder snippetTasks snippetTasks ∧
    resultStream snippetTasks.reverse ≠ resultStream snippetTasks :=
  completion_order_nondeterministic snippetTasks snippetTasks (List.Perm.refl _)

end GoHandbook
